import Mathlib

/- Verification development for the chinfield-rag-demo repository:
   a confidence-gated retrieval-augmented answer pipeline together with
   two browser chat-widget clients.  The widgets are embedded from the
   JavaScript sources; the server-side pipeline is modelled from the
   specification because its Python sources are not part of the
   repository snapshot. -/

namespace Chinfield

/- ===================================================================
   Part 1.  The retrieval pipeline (Confidence Gate, Handoff Decider,
   Orchestrator).
   =================================================================== -/

/-- Whitespace trimming of a string, the semantics of the trim calls of
the sources, embedded executably over the character list. -/
def jsTrim (s : String) : String :=
  String.mk (((s.toList.dropWhile Char.isWhitespace).reverse.dropWhile
    Char.isWhitespace).reverse)

/-- Modelled from the spec: a RetrievedPassage pairs a document chunk with
a similarity score (the pipeline sources app.py and rag_system_api.py are
absent from the snapshot, so the data model follows section 3 of the spec).
Scores are modelled as rationals. -/
structure RetrievedPassage where
  chunkId : String
  text : String
  source_product : String
  score : ℚ
deriving DecidableEq

/-- Modelled from the spec: the ConfidenceAssessment derived value of
section 3 of the spec. -/
structure ConfidenceAssessment where
  mean_score : ℚ
  max_score : ℚ
  passage_count : Nat
  sufficient : Bool
deriving DecidableEq

/-- Sum of the scores of a passage list. -/
def sumScores (ps : List RetrievedPassage) : ℚ :=
  ps.foldl (fun a p => a + p.score) 0

/-- Modelled from the spec: the arithmetic mean of the passage scores,
0 if the list is empty. -/
def meanScore (ps : List RetrievedPassage) : ℚ :=
  if ps.isEmpty then 0 else sumScores ps / (ps.length : ℚ)

/-- Modelled from the spec: the Confidence Gate.  sufficient holds exactly
when the passage list is non-empty and the mean score reaches the
threshold (inclusive boundary). -/
def assess (threshold : ℚ) (ps : List RetrievedPassage) : ConfidenceAssessment :=
  { mean_score := meanScore ps
    max_score := ps.foldl (fun a p => max a p.score) 0
    passage_count := ps.length
    sufficient := !ps.isEmpty && decide (threshold ≤ meanScore ps) }

/-- Modelled from the spec: failure reasons of the Answer Generator. -/
inductive GenFailureReason
  | NETWORK
  | TIMEOUT
  | EMPTY_COMPLETION
  | PROVIDER_ERROR
deriving DecidableEq

/-- Modelled from the spec: GenerationResult of section 3. -/
structure GenerationResult where
  answer_text : String
  succeeded : Bool
  failure_reason : Option GenFailureReason
deriving DecidableEq

/-- Modelled from the spec: infrastructure faults a stage can raise;
these never cross the Orchestrator boundary. -/
inductive StageFault
  | EncodingError
  | IndexUnavailableError
deriving DecidableEq

/-- Modelled from the spec: reasons recorded on entering the HANDOFF
state of the Handoff Decider. -/
inductive HandoffReason
  | NO_DOCUMENTS
  | LOW_CONFIDENCE
  | GENERATION_FAILURE
deriving DecidableEq

/-- Modelled from the spec: states of the Handoff Decider state machine
(section 4.4); ANSWERED and HANDOFF are terminal. -/
inductive DeciderState
  | EVALUATING_RETRIEVAL
  | GENERATING
  | ANSWERED (answer : String)
  | HANDOFF (reason : HandoffReason)
deriving DecidableEq

/-- Modelled from the spec: the only error that crosses the Orchestrator
boundary as a distinguishable error. -/
inductive PipelineError
  | InvalidInputError
deriving DecidableEq

/-- Modelled from the spec: the externally visible result of one query. -/
structure ChatResponse where
  answer : String
  needs_human : Bool
  num_docs : Nat
  session_id : String
deriving DecidableEq

/-- Configured contact email of the handoff block. -/
def contact_email : String := "info@chinfield.com"

/-- Configured contact phone of the handoff block. -/
def contact_phone : String := "+54 11 4762-5163"

/-- Configured contact URL of the handoff block. -/
def contact_url : String := "https://chinfield.com/contacto"

/-- Modelled from the spec: the fixed configuration-driven contact block
appended on entering HANDOFF (email, phone, contact URL). -/
def contactBlock : String :=
  "Para consultas contacta: " ++ contact_email ++ " / " ++ contact_phone
    ++ " / " ++ contact_url

/-- Modelled from the spec: the contact block is appended to whatever
partial answer text exists, separated by a visual delimiter. -/
def appendContactBlock (partialText : String) : String :=
  partialText ++ "\n---\n" ++ contactBlock

/-- Modelled from the spec: generic apology used when a stage fault is
caught at the Orchestrator boundary. -/
def apologyText : String :=
  "Lo siento, no puedo responder tu consulta en este momento."

/-- Modelled from the spec: the default confidence threshold. -/
def confidence_threshold : ℚ := 65 / 100

/-- Modelled from the spec: the Handoff Decider state machine run from
EVALUATING_RETRIEVAL.  Returns the terminal state, the final answer text
and the number of Answer Generator invocations. -/
def handoffDecider (a : ConfidenceAssessment)
    (generate : String → List RetrievedPassage → GenerationResult)
    (query : String) (ps : List RetrievedPassage) :
    DeciderState × String × Nat :=
  if a.sufficient then
    let g := generate query ps
    if g.succeeded then
      (DeciderState.ANSWERED g.answer_text, g.answer_text, 1)
    else
      (DeciderState.HANDOFF HandoffReason.GENERATION_FAILURE,
        appendContactBlock g.answer_text, 1)
  else
    let r := if a.passage_count = 0 then HandoffReason.NO_DOCUMENTS
             else HandoffReason.LOW_CONFIDENCE
    (DeciderState.HANDOFF r, appendContactBlock "", 0)

/-- Does a decider state count as handoff? -/
def needsHumanOf : DeciderState → Bool
  | DeciderState.HANDOFF _ => true
  | _ => false

/-- Modelled from the spec: the Pipeline Orchestrator (section 4.5).
Validates the query, runs Retriever, Confidence Gate and Handoff Decider,
catches stage faults at the boundary and converts them into a forced
handoff response.  Returns the terminal decider state (none when the
machine was never reached), the boundary result and the generator call
count. -/
def runPipeline (threshold : ℚ)
    (retrieve : String → Except StageFault (List RetrievedPassage))
    (generate : String → List RetrievedPassage → GenerationResult)
    (query session_id : String) :
    Option DeciderState × Except PipelineError ChatResponse × Nat :=
  if jsTrim query = "" then
    (none, Except.error PipelineError.InvalidInputError, 0)
  else
    match retrieve query with
    | Except.error _ =>
        (none,
         Except.ok { answer := appendContactBlock apologyText
                     needs_human := true
                     num_docs := 0
                     session_id := session_id }, 0)
    | Except.ok ps =>
        let a := assess threshold ps
        let res := handoffDecider a generate query ps
        (some res.1,
         Except.ok { answer := res.2.1
                     needs_human := needsHumanOf res.1
                     num_docs := ps.length
                     session_id := session_id }, res.2.2)

/-- Modelled from the spec: answer_query, the Orchestrator contract. -/
def answer_query (threshold : ℚ)
    (retrieve : String → Except StageFault (List RetrievedPassage))
    (generate : String → List RetrievedPassage → GenerationResult)
    (query session_id : String) : Except PipelineError ChatResponse :=
  (runPipeline threshold retrieve generate query session_id).2.1

/- ===================================================================
   Part 2.  Shared widget vocabulary.
   =================================================================== -/

/-- Sender of a chat message in the widget DOM. -/
inductive Sender
  | user
  | bot
deriving DecidableEq

/-- One message element of the chat messages container. -/
structure Msg where
  id : Nat
  text : String
  sender : Sender
  isLoading : Bool
deriving DecidableEq

/-- The JSON object a widget receives from POST /api/chat; every field is
optional because JavaScript property access on a missing key yields
undefined. -/
structure ApiJson where
  answer : Option String
  response : Option String
  needs_human : Option Bool
  handoff_to_human : Option Bool
  num_docs : Option Nat
deriving DecidableEq

/-- JavaScript string conversion applied when an undefined value is
rendered (textContent assignment stringifies undefined). -/
def jsToString : Option String → String
  | some s => s
  | none => "undefined"

/-- JavaScript truthiness of a possibly missing boolean field. -/
def truthy : Option Bool → Bool
  | some b => b
  | none => false

/-- An HTTP POST issued by a widget: endpoint path and JSON body as a
key-value list. -/
structure HttpPost where
  path : String
  body : List (String × String)
deriving DecidableEq

/-- Outcome of the awaited fetch: parsed JSON on an ok response, failure
on a network error, a non-ok status or a JSON parse error. -/
inductive FetchOutcome
  | success (data : ApiJson)
  | failure
deriving DecidableEq

/- ===================================================================
   Part 3.  The v2 widget (src/unnamed/part_000).
   =================================================================== -/

namespace V2

/-- The mutable STATE object of the v2 widget plus the pending-fetch
continuation (pendingLoading holds the captured loadingId while a fetch
is awaited) and a ghost count of in-flight API requests. -/
structure WState where
  chatOpen : Bool
  isWaitingResponse : Bool
  sessionId : String
  messageCount : Nat
  inputValue : String
  messages : List Msg
  nextId : Nat
  pendingLoading : Option Nat
  inflight : Nat
deriving DecidableEq

/-- Widget state right after initialization: the session id has just been
generated by generateSessionId and no message has been exchanged. -/
def initState (sid : String) : WState :=
  { chatOpen := false
    isWaitingResponse := false
    sessionId := sid
    messageCount := 0
    inputValue := ""
    messages := []
    nextId := 0
    pendingLoading := none
    inflight := 0 }

/-- addMessage of the v2 widget: appends a message div with a fresh id to
the messages container and increments messageCount.  Returns the new
state and the message id. -/
def addMessage (s : WState) (text : String) (sender : Sender)
    (isLoading : Bool) : WState × Nat :=
  ({ s with
      messages := s.messages ++ [{ id := s.nextId, text := text,
                                   sender := sender, isLoading := isLoading }]
      nextId := s.nextId + 1
      messageCount := s.messageCount + 1 }, s.nextId)

/-- removeMessage of the v2 widget: removes the element with the given
id from the messages container. -/
def removeMessage (s : WState) (mid : Nat) : WState :=
  { s with messages := s.messages.filter (fun m => m.id ≠ mid) }

/-- getSessionId of the public window.ChinfiledChat API. -/
def getSessionId (s : WState) : String := s.sessionId

/-- The synchronous part of the v2 sendMessage up to the fetch call:
guards on empty trimmed input and on isWaitingResponse, clears the input,
appends the user message and the loading message, sets
isWaitingResponse and issues the POST /api/chat request with message and
session_id.  Returns the new state and the issued request, if any. -/
def sendMessageStart (s : WState) : WState × Option HttpPost :=
  let message := jsTrim s.inputValue
  if message = "" ∨ s.isWaitingResponse then (s, none)
  else
    let s1 := { s with inputValue := "" }
    let s2 := (addMessage s1 message Sender.user false).1
    let res := addMessage s2 "Pensando..." Sender.bot true
    let s4 := { res.1 with
                  isWaitingResponse := true
                  pendingLoading := some res.2
                  inflight := res.1.inflight + 1 }
    (s4, some { path := "/api/chat",
                body := [("message", message), ("session_id", s.sessionId)] })

/-- The continuation of the v2 sendMessage after the awaited fetch
settles: on success it removes the loading message and appends one bot
message with data.answer (the needs_human branch intentionally adds
nothing); on failure it removes the loading message and appends the
fallback message; the finally block always resets isWaitingResponse. -/
def sendMessageComplete (s : WState) (outcome : FetchOutcome) : WState :=
  match s.pendingLoading with
  | none => s
  | some lid =>
      let s0 := { s with pendingLoading := none, inflight := s.inflight - 1 }
      match outcome with
      | FetchOutcome.success data =>
          let s1 := removeMessage s0 lid
          let s2 := (addMessage s1 (jsToString data.answer) Sender.bot false).1
          { s2 with isWaitingResponse := false }
      | FetchOutcome.failure =>
          let s1 := removeMessage s0 lid
          let s2 := (addMessage s1
            ("Lo siento, hubo un problema al procesar tu consulta. "
              ++ "Por favor, intenta nuevamente o contacta a info@chinfield.com")
            Sender.bot false).1
          { s2 with isWaitingResponse := false }

/-- openChat of the v2 widget (DOM effects omitted). -/
def openChat (s : WState) : WState :=
  if s.chatOpen then s else { s with chatOpen := true }

/-- closeChat of the v2 widget (DOM effects omitted). -/
def closeChat (s : WState) : WState :=
  if s.chatOpen then { s with chatOpen := false } else s

/-- toggleChat of the v2 widget. -/
def toggleChat (s : WState) : WState :=
  if s.chatOpen then closeChat s else openChat s

/-- Events driving the widget state machine: the user typing some input
and pressing send, a pending fetch settling, and the chat visibility
actions. -/
inductive WEvent
  | send (input : String)
  | settle (outcome : FetchOutcome)
  | toggle
  | openEvt
  | closeEvt
deriving DecidableEq

/-- One step of the widget state machine. -/
def wstep (s : WState) : WEvent → WState
  | WEvent.send input => (sendMessageStart { s with inputValue := input }).1
  | WEvent.settle outcome => sendMessageComplete s outcome
  | WEvent.toggle => toggleChat s
  | WEvent.openEvt => openChat s
  | WEvent.closeEvt => closeChat s

/-- Run the widget from a state through a list of events. -/
def runEvents (s : WState) (es : List WEvent) : WState :=
  es.foldl wstep s

end V2

/- ===================================================================
   Part 4.  The legacy widget (src/frontend/widget.js).
   =================================================================== -/

namespace Legacy

/-- Module-level state of the legacy widget; it keeps no session id. -/
structure LState where
  chatOpen : Bool
  isWaitingResponse : Bool
  inputValue : String
  messages : List Msg
  nextId : Nat
  pendingLoading : Option Nat
deriving DecidableEq

/-- addMessage of the legacy widget. -/
def addMessage (s : LState) (text : String) (sender : Sender)
    (isLoading : Bool) : LState × Nat :=
  ({ s with
      messages := s.messages ++ [{ id := s.nextId, text := text,
                                   sender := sender, isLoading := isLoading }]
      nextId := s.nextId + 1 }, s.nextId)

/-- removeMessage of the legacy widget. -/
def removeMessage (s : LState) (mid : Nat) : LState :=
  { s with messages := s.messages.filter (fun m => m.id ≠ mid) }

/-- The fixed separate handoff message the legacy widget appends via
addHandoffMessage; it carries the contact channels. -/
def handoffText : String :=
  "¿Necesitás más ayuda? Para consultas específicas contactá: "
    ++ "info@chinfield.com +54 11 4762-5163 https://chinfield.com/contacto"

/-- addHandoffMessage of the legacy widget: appends the fixed contact
message as an extra bot message. -/
def addHandoffMessage (s : LState) : LState :=
  (addMessage s handoffText Sender.bot false).1

/-- The synchronous part of the legacy sendMessage up to the fetch call;
the JSON body carries only the message field. -/
def sendMessageStart (s : LState) : LState × Option HttpPost :=
  let message := jsTrim s.inputValue
  if message = "" ∨ s.isWaitingResponse then (s, none)
  else
    let s1 := { s with inputValue := "" }
    let s2 := (addMessage s1 message Sender.user false).1
    let res := addMessage s2 "Pensando..." Sender.bot true
    let s4 := { res.1 with
                  isWaitingResponse := true
                  pendingLoading := some res.2 }
    (s4, some { path := "/api/chat", body := [("message", message)] })

/-- The continuation of the legacy sendMessage after the awaited fetch
settles: on success it renders data.response and, when
data.handoff_to_human is truthy, appends the separate handoff message;
on failure it appends the fallback message; finally always resets
isWaitingResponse. -/
def sendMessageComplete (s : LState) (outcome : FetchOutcome) : LState :=
  match s.pendingLoading with
  | none => s
  | some lid =>
      let s0 := { s with pendingLoading := none }
      match outcome with
      | FetchOutcome.success data =>
          let s1 := removeMessage s0 lid
          let s2 := (addMessage s1 (jsToString data.response) Sender.bot false).1
          let s3 := if truthy data.handoff_to_human then addHandoffMessage s2
                    else s2
          { s3 with isWaitingResponse := false }
      | FetchOutcome.failure =>
          let s1 := removeMessage s0 lid
          let s2 := (addMessage s1
            ("Lo siento, hubo un problema al procesar tu consulta. "
              ++ "Por favor, intenta nuevamente o contacta directamente a "
              ++ "info@chinfield.com")
            Sender.bot false).1
          { s2 with isWaitingResponse := false }

end Legacy

/- ===================================================================
   Part 5.  sanitizeHTML of the v2 widget, over character lists.
   =================================================================== -/

/-- The browser escaping performed by assigning textContent and reading
back innerHTML: the characters amp, lt and gt are escaped in a text
node. -/
def escapeText : List Char → List Char
  | [] => []
  | c :: rest =>
    if c = '&' then '&' :: 'a' :: 'm' :: 'p' :: ';' :: escapeText rest
    else if c = '<' then '&' :: 'l' :: 't' :: ';' :: escapeText rest
    else if c = '>' then '&' :: 'g' :: 't' :: ';' :: escapeText rest
    else c :: escapeText rest

/-- Global left-to-right non-overlapping literal replacement, the
semantics of a JavaScript replace with a global literal pattern. -/
def replaceAll (pat repl : List Char) (l : List Char) : List Char :=
  match l with
  | [] => []
  | c :: rest =>
    if h : pat ≠ [] ∧ pat.isPrefixOf (c :: rest) then
      repl ++ replaceAll pat repl (List.drop pat.length (c :: rest))
    else
      c :: replaceAll pat repl rest
termination_by l.length
decreasing_by
  · simp only [List.length_drop, List.length_cons]
    have : 0 < pat.length := List.length_pos.mpr h.1
    omega
  · simp [List.length_cons]

/-- The escaped anchor opening recognised by the anchor rule of
sanitizeHTML. -/
def anchorPat : List Char := "&lt;a href=\"".toList

/-- The escaped text that must follow the captured href value. -/
def anchorClosePat : List Char := "\"&gt;".toList

/-- The attribute tail the anchor rule adds to every re-enabled anchor. -/
def anchorAttrs : List Char :=
  "\" target=\"_blank\" rel=\"noopener noreferrer\">".toList

/-- The re-enabled anchor opening tag built from a captured href value. -/
def anchorOpenTag (seg : List Char) : List Char :=
  "<a href=\"".toList ++ seg ++ anchorAttrs

/-- The character class of the captured href value: any character other
than a double quote. -/
def notQuote (ch : Char) : Bool := ch ≠ '"'

/-- The anchor rule of sanitizeHTML: the global regex replace that turns
every escaped anchor opening with a quoted non-empty href back into a
live anchor carrying target blank and rel noopener noreferrer.  The
greedy character class excludes double quotes, so the capture runs to the
next double quote, which must be followed by the escaped closing
bracket. -/
def replaceAnchors (l : List Char) : List Char :=
  match l with
  | [] => []
  | c :: rest =>
    if anchorPat.isPrefixOf (c :: rest) then
      let after := List.drop anchorPat.length (c :: rest)
      let seg := after.takeWhile notQuote
      let rest2 := after.dropWhile notQuote
      if seg ≠ [] ∧ anchorClosePat.isPrefixOf rest2 then
        anchorOpenTag seg ++ replaceAnchors (List.drop anchorClosePat.length rest2)
      else
        c :: replaceAnchors rest
    else
      c :: replaceAnchors rest
termination_by l.length
decreasing_by
  · have h2 : (List.dropWhile notQuote
        (List.drop anchorPat.length (c :: rest))).length ≤
        (List.drop anchorPat.length (c :: rest)).length :=
      (List.dropWhile_sublist _).length_le
    have hp : 0 < anchorPat.length := by decide
    simp only [List.length_drop, List.length_cons] at h2 ⊢
    omega
  · simp [List.length_cons]
  · simp [List.length_cons]

/-- sanitizeHTML of the v2 widget: escape the whole input as a text node,
then re-enable newline breaks and the whitelisted escaped tags in the
order of the source chain. -/
def sanitizeHTML (input : List Char) : List Char :=
  replaceAll "&lt;/li&gt;".toList "</li>".toList (
  replaceAll "&lt;li&gt;".toList "<li>".toList (
  replaceAll "&lt;/ul&gt;".toList "</ul>".toList (
  replaceAll "&lt;ul&gt;".toList "<ul>".toList (
  replaceAll "&lt;/a&gt;".toList "</a>".toList (
  replaceAnchors (
  replaceAll "&lt;/em&gt;".toList "</em>".toList (
  replaceAll "&lt;em&gt;".toList "<em>".toList (
  replaceAll "&lt;/strong&gt;".toList "</strong>".toList (
  replaceAll "&lt;strong&gt;".toList "<strong>".toList (
  replaceAll "&lt;br&gt;".toList "<br>".toList (
  replaceAll ['\n'] "<br>".toList (
  escapeText input))))))))))))

/-- The whitelisted simple tag literals a sanitized string may contain
live. -/
def simpleTags : List (List Char) :=
  ["<br>".toList, "<strong>".toList, "</strong>".toList,
   "<em>".toList, "</em>".toList, "</a>".toList,
   "<ul>".toList, "</ul>".toList, "<li>".toList, "</li>".toList]

/-- Shape of a sanitized string: interleaving of inert characters (never
a raw angle bracket), whitelisted simple tag literals, and, when the flag
allows anchors, full anchor opening tags whose href value is quote-free
and which carry the target and rel attributes.  A string of this shape
contains no active markup beyond the whitelist. -/
inductive SafeHtml : Bool → List Char → Prop
  | nil (a : Bool) : SafeHtml a []
  | chr (a : Bool) (c : Char) (l : List Char) :
      c ≠ '<' → c ≠ '>' → SafeHtml a l → SafeHtml a (c :: l)
  | tag (a : Bool) (t : List Char) (l : List Char) :
      t ∈ simpleTags → SafeHtml a l → SafeHtml a (t ++ l)
  | anc (seg : List Char) (l : List Char) :
      (∀ ch ∈ seg, ch ≠ '"') → SafeHtml true l →
      SafeHtml true (anchorOpenTag seg ++ l)

/- ===================================================================
   Part 6.  Helper lemmas.
   =================================================================== -/

/-- One-step unfolding of replaceAll on a cons cell. -/
theorem replaceAll_cons (pat repl : List Char) (c : Char) (rest : List Char) :
    replaceAll pat repl (c :: rest) =
      if pat ≠ [] ∧ pat.isPrefixOf (c :: rest) then
        repl ++ replaceAll pat repl (List.drop pat.length (c :: rest))
      else
        c :: replaceAll pat repl rest := by
  rw [replaceAll]
  split <;> rfl

/-- replaceAll maps the empty list to itself. -/
theorem replaceAll_nil (pat repl : List Char) : replaceAll pat repl [] = [] := by
  rw [replaceAll]

/-- One-step unfolding of replaceAnchors on a cons cell. -/
theorem replaceAnchors_cons (c : Char) (rest : List Char) :
    replaceAnchors (c :: rest) =
      if anchorPat.isPrefixOf (c :: rest) then
        if (List.drop anchorPat.length (c :: rest)).takeWhile notQuote ≠ [] ∧
            anchorClosePat.isPrefixOf
              ((List.drop anchorPat.length (c :: rest)).dropWhile notQuote) then
          anchorOpenTag ((List.drop anchorPat.length (c :: rest)).takeWhile notQuote)
            ++ replaceAnchors (List.drop anchorClosePat.length
                 ((List.drop anchorPat.length (c :: rest)).dropWhile notQuote))
        else
          c :: replaceAnchors rest
      else
        c :: replaceAnchors rest := by
  rw [replaceAnchors]

/-- replaceAnchors maps the empty list to itself. -/
theorem replaceAnchors_nil : replaceAnchors [] = [] := by
  rw [replaceAnchors]

/-- The browser escaping step leaves no raw angle bracket in its
output. -/
theorem escapeText_inert (l : List Char) :
    ∀ c ∈ escapeText l, c ≠ '<' ∧ c ≠ '>' := by
  induction l with
  | nil => intro c hc; simp [escapeText] at hc
  | cons d rest ih =>
      intro c hc
      by_cases h1 : d = '&'
      · subst h1; simp [escapeText] at hc
        rcases hc with rfl | rfl | rfl | rfl | rfl | h
        · decide
        · decide
        · decide
        · decide
        · decide
        · exact ih c h
      · by_cases h2 : d = '<'
        · subst h2; simp [escapeText, h1] at hc
          rcases hc with rfl | rfl | rfl | rfl | h
          · decide
          · decide
          · decide
          · decide
          · exact ih c h
        · by_cases h3 : d = '>'
          · subst h3; simp [escapeText, h1, h2] at hc
            rcases hc with rfl | rfl | rfl | rfl | h
            · decide
            · decide
            · decide
            · decide
            · exact ih c h
          · simp [escapeText, h1, h2, h3] at hc
            rcases hc with rfl | h
            · exact ⟨h2, h3⟩
            · exact ih c h

/-- A list without raw angle brackets is safe for any flag. -/
theorem safe_of_inert (a : Bool) (l : List Char)
    (h : ∀ c ∈ l, c ≠ '<' ∧ c ≠ '>') : SafeHtml a l := by
  induction l with
  | nil => exact SafeHtml.nil a
  | cons c rest ih =>
      exact SafeHtml.chr a c rest (h c (by simp)).1 (h c (by simp)).2
        (ih (fun d hd => h d (by simp [hd])))

/-- Safety without anchors entails safety with anchors allowed. -/
theorem safe_mono (a : Bool) (l : List Char) (h : SafeHtml false l) :
    SafeHtml a l := by
  generalize hb : false = b at h
  induction h with
  | nil _ => exact SafeHtml.nil a
  | chr _ c l hc1 hc2 _ ih => exact SafeHtml.chr a c l hc1 hc2 (ih hb)
  | tag _ t l ht _ ih => exact SafeHtml.tag a t l ht (ih hb)
  | anc seg l hseg _ ih => exact absurd hb (by simp)

/-- Every character of a replaceAll output comes from the input or from
the replacement. -/
theorem replaceAll_mem_fuel (pat repl : List Char) :
    ∀ (n : Nat) (l : List Char), l.length ≤ n →
      ∀ c, c ∈ replaceAll pat repl l → c ∈ l ∨ c ∈ repl := by
  intro n
  induction n with
  | zero =>
      intro l hl c hc
      have : l = [] := List.eq_nil_of_length_eq_zero (Nat.le_zero.mp hl)
      subst this
      rw [replaceAll_nil] at hc
      simp at hc
  | succ n ih =>
      intro l hl c hc
      match l with
      | [] => rw [replaceAll_nil] at hc; simp at hc
      | d :: rest =>
          rw [replaceAll_cons] at hc
          split at hc
          next hcond =>
            rcases List.mem_append.mp hc with h | h
            · exact Or.inr h
            · have hlen : (List.drop pat.length (d :: rest)).length ≤ n := by
                have : 0 < pat.length := List.length_pos.mpr hcond.1
                simp only [List.length_drop, List.length_cons]
                simp only [List.length_cons] at hl
                omega
              rcases ih _ hlen c h with h2 | h2
              · exact Or.inl (List.mem_of_mem_drop h2)
              · exact Or.inr h2
          next hcond =>
            rcases List.mem_cons.mp hc with h | h
            · exact Or.inl (by simp [h])
            · have hlen : rest.length ≤ n := by
                simp only [List.length_cons] at hl; omega
              rcases ih _ hlen c h with h2 | h2
              · exact Or.inl (by simp [h2])
              · exact Or.inr h2

/-- Every character of a replaceAll output comes from the input or from
the replacement (unfuelled form). -/
theorem replaceAll_mem (pat repl l : List Char) (c : Char)
    (hc : c ∈ replaceAll pat repl l) : c ∈ l ∨ c ∈ repl :=
  replaceAll_mem_fuel pat repl l.length l le_rfl c hc

/-- Every simple tag literal starts with an opening angle bracket. -/
theorem simpleTags_head : ∀ u ∈ simpleTags, u.head? = some '<' := by decide

/-- Every simple tag literal is non-empty. -/
theorem simpleTags_ne_nil : ∀ u ∈ simpleTags, 0 < u.length := by decide

/-- The anchor opening tag literal starts with an opening angle
bracket. -/
theorem anchorOpenTag_cons (seg : List Char) :
    anchorOpenTag seg =
      '<' :: ("a href=\"".toList ++ seg ++ anchorAttrs) := by
  have h9 : "<a href=\"".toList = '<' :: "a href=\"".toList := by decide
  rw [anchorOpenTag, h9]
  simp

/-- Dropping a matched region that contains no opening angle bracket
from a safe string leaves a safe string: such a match must lie entirely
within inert characters. -/
theorem safe_drop_of_prefix (a : Bool) :
    ∀ (m l : List Char), SafeHtml a l → m <+: l → '<' ∉ m →
      SafeHtml a (List.drop m.length l) := by
  intro m
  induction m with
  | nil => intro l hs _ _; simpa using hs
  | cons c m' ih =>
      intro l hs hpre hnm
      cases hs with
      | nil _ =>
          rw [List.prefix_nil] at hpre
          simp at hpre
      | chr _ d l' hd1 hd2 hs' =>
          rcases List.cons_prefix_cons.mp hpre with ⟨rfl, hpre'⟩
          have h1 := ih l' hs' hpre'
            (fun hm => hnm (List.mem_cons_of_mem _ hm))
          simpa [List.drop_succ_cons] using h1
      | tag _ t l' ht hs' =>
          have hh := simpleTags_head t ht
          match t, hh with
          | e :: t2, hh =>
              have he : e = '<' := by simpa using hh
              subst he
              rw [List.cons_append] at hpre
              rcases List.cons_prefix_cons.mp hpre with ⟨rfl, _⟩
              exact absurd (List.mem_cons_self _ _) hnm
      | anc seg l' hseg hs' =>
          rw [anchorOpenTag_cons] at hpre
          rcases List.cons_prefix_cons.mp hpre with ⟨rfl, _⟩
          exact absurd (List.mem_cons_self _ _) hnm

/-- replaceAll passes over a block that does not contain the head of the
pattern. -/
theorem replaceAll_skipBlock (p0 : Char) (ptl repl : List Char) :
    ∀ (t l : List Char), p0 ∉ t →
      replaceAll (p0 :: ptl) repl (t ++ l) =
        t ++ replaceAll (p0 :: ptl) repl l := by
  intro t
  induction t with
  | nil => intro l _; simp
  | cons c t' ih =>
      intro l hnt
      have hc : p0 ≠ c := fun h => hnt (by simp [h])
      rw [List.cons_append, replaceAll_cons, if_neg, ih l (fun h => hnt (by simp [h]))]
      · simp
      · rintro ⟨-, hpre⟩
        have := List.isPrefixOf_iff_prefix.mp hpre
        exact hc (List.cons_prefix_cons.mp this).1

/-- replaceAll distributes over an append whose right part starts with a
character that does not occur in the pattern: no match can cross the
boundary. -/
theorem replaceAll_split (pat repl : List Char) (q : Char)
    (hq : q ∉ pat) (hne : pat ≠ []) :
    ∀ (n : Nat) (a b : List Char), a.length ≤ n →
      replaceAll pat repl (a ++ q :: b) =
        replaceAll pat repl a ++ replaceAll pat repl (q :: b) := by
  intro n
  induction n with
  | zero =>
      intro a b ha
      have : a = [] := List.eq_nil_of_length_eq_zero (Nat.le_zero.mp ha)
      subst this
      simp [replaceAll_nil]
  | succ n ih =>
      intro a b ha
      match a with
      | [] => simp [replaceAll_nil]
      | c :: a' =>
          by_cases hm : pat.isPrefixOf (c :: a')
          · have hpre : pat <+: (c :: a') := List.isPrefixOf_iff_prefix.mp hm
            have hplen : pat.length ≤ (c :: a').length := hpre.length_le
            have hmx : pat.isPrefixOf ((c :: a') ++ q :: b) :=
              List.isPrefixOf_iff_prefix.mpr
                (hpre.trans (List.prefix_append _ _))
            rw [List.cons_append, replaceAll_cons, if_pos ⟨hne, by
              rw [← List.cons_append]; exact hmx⟩]
            rw [replaceAll_cons, if_pos ⟨hne, hm⟩]
            rw [← List.cons_append, List.drop_append_of_le_length hplen]
            rw [List.append_assoc]
            congr 1
            have hlen2 : (List.drop pat.length (c :: a')).length ≤ n := by
              have hp0 : 0 < pat.length := List.length_pos.mpr hne
              simp only [List.length_drop, List.length_cons]
              simp only [List.length_cons] at ha
              omega
            exact ih _ b hlen2
          · have hmx : ¬ pat.isPrefixOf ((c :: a') ++ q :: b) := by
              intro hx
              have hxp : pat <+: ((c :: a') ++ q :: b) :=
                List.isPrefixOf_iff_prefix.mp hx
              by_cases hlen : pat.length ≤ (c :: a').length
              · apply hm
                apply List.isPrefixOf_iff_prefix.mpr
                have := List.prefix_iff_eq_take.mp hxp
                rw [List.take_append_of_le_length hlen] at this
                rw [this]
                exact List.take_prefix _ _
              · apply hq
                have := List.prefix_iff_eq_take.mp hxp
                rw [List.take_append_eq_append_take] at this
                have hq1 : q ∈ List.take (pat.length - (c :: a').length) (q :: b) := by
                  have hpos : 0 < pat.length - (c :: a').length := by omega
                  match hk : pat.length - (c :: a').length with
                  | 0 => omega
                  | k + 1 => simp [List.take_succ_cons]
                rw [this]
                exact List.mem_append.mpr (Or.inr hq1)
            rw [List.cons_append, replaceAll_cons, if_neg (by
              rintro ⟨-, hx⟩
              exact hmx (by rw [← List.cons_append] at hx; exact hx))]
            rw [replaceAll_cons, if_neg (fun hx => hm hx.2)]
            rw [List.cons_append]
            congr 1
            have : a'.length ≤ n := by
              simp only [List.length_cons] at ha; omega
            exact ih a' b this

/-- The anchor attribute tail starts with the double quote closing the
href value. -/
theorem anchorAttrs_cons :
    anchorAttrs = '"' :: " target=\"_blank\" rel=\"noopener noreferrer\">".toList := by
  decide

/-- Core preservation lemma: a replaceAll pass whose pattern avoids
angle brackets, double quotes and the characters that open the emitted
tag literals, and whose replacement is a whitelisted tag literal,
preserves safety. -/
theorem safe_replaceAll_fuel (a : Bool) (p0 : Char) (ptl repl : List Char)
    (hlt : '<' ∉ p0 :: ptl) (hq : '"' ∉ p0 :: ptl)
    (htag : ∀ t ∈ simpleTags, p0 ∉ t)
    (hopen9 : p0 ∉ "<a href=\"".toList) (hattrs : p0 ∉ anchorAttrs)
    (hrepl : repl ∈ simpleTags) :
    ∀ (n : Nat) (l : List Char), l.length ≤ n → SafeHtml a l →
      SafeHtml a (replaceAll (p0 :: ptl) repl l) := by
  intro n
  induction n with
  | zero =>
      intro l hl _
      have : l = [] := List.eq_nil_of_length_eq_zero (Nat.le_zero.mp hl)
      subst this
      rw [replaceAll_nil]
      exact SafeHtml.nil a
  | succ n ih =>
      intro l hl hs
      cases hs with
      | nil _ =>
          rw [replaceAll_nil]
          exact SafeHtml.nil a
      | chr _ c l' h1 h2 hs' =>
          rw [replaceAll_cons]
          by_cases hm : (p0 :: ptl) ≠ [] ∧ (p0 :: ptl).isPrefixOf (c :: l')
          · rw [if_pos hm]
            refine SafeHtml.tag a repl _ hrepl ?_
            have hpre := List.isPrefixOf_iff_prefix.mp hm.2
            have hdrop := safe_drop_of_prefix a (p0 :: ptl) (c :: l')
              (SafeHtml.chr a c l' h1 h2 hs') hpre hlt
            refine ih _ ?_ hdrop
            simp only [List.length_drop, List.length_cons]
            simp only [List.length_cons] at hl
            omega
          · rw [if_neg hm]
            refine SafeHtml.chr a c _ h1 h2 ?_
            refine ih l' ?_ hs'
            simp only [List.length_cons] at hl
            omega
      | tag _ t l' ht hs' =>
          rw [replaceAll_skipBlock p0 ptl repl t l' (htag t ht)]
          refine SafeHtml.tag a t _ ht ?_
          refine ih l' ?_ hs'
          have := simpleTags_ne_nil t ht
          rw [List.length_append] at hl
          omega
      | anc seg l' hseg hs' =>
          have hstep : replaceAll (p0 :: ptl) repl (anchorOpenTag seg ++ l') =
              anchorOpenTag (replaceAll (p0 :: ptl) repl seg)
                ++ replaceAll (p0 :: ptl) repl l' := by
            rw [anchorOpenTag, List.append_assoc, List.append_assoc,
              replaceAll_skipBlock p0 ptl repl _ _ hopen9]
            rw [anchorAttrs_cons, List.cons_append]
            rw [replaceAll_split (p0 :: ptl) repl '"' hq (by simp)
              seg.length seg _ le_rfl]
            rw [← List.cons_append, ← anchorAttrs_cons]
            rw [replaceAll_skipBlock p0 ptl repl anchorAttrs l' hattrs]
            rw [anchorOpenTag]
            simp [List.append_assoc]
          rw [hstep]
          refine SafeHtml.anc _ _ ?_ ?_
          · intro ch hch
            rcases replaceAll_mem _ _ _ _ hch with h | h
            · exact hseg ch h
            · intro hbad
              subst hbad
              have : ∀ u ∈ simpleTags, '"' ∉ u := by decide
              exact this repl hrepl h
          · refine ih l' ?_ hs'
            rw [List.length_append, anchorOpenTag_cons] at hl
            simp only [List.length_cons] at hl
            omega

/-- Unfuelled form of the replaceAll preservation lemma. -/
theorem safe_replaceAll (a : Bool) (p0 : Char) (ptl repl : List Char)
    (hlt : '<' ∉ p0 :: ptl) (hq : '"' ∉ p0 :: ptl)
    (htag : ∀ t ∈ simpleTags, p0 ∉ t)
    (hopen9 : p0 ∉ "<a href=\"".toList) (hattrs : p0 ∉ anchorAttrs)
    (hrepl : repl ∈ simpleTags)
    (l : List Char) (hs : SafeHtml a l) :
    SafeHtml a (replaceAll (p0 :: ptl) repl l) :=
  safe_replaceAll_fuel a p0 ptl repl hlt hq htag hopen9 hattrs hrepl
    l.length l le_rfl hs

/-- The escaped anchor opening begins with an ampersand. -/
theorem anchorPat_cons : anchorPat = '&' :: "lt;a href=\"".toList := by decide

/-- The escaped anchor closing ends with a semicolon. -/
theorem anchorClosePat_decomp :
    anchorClosePat = "\"&gt".toList ++ [';'] := by decide

/-- No simple tag literal contains a semicolon. -/
theorem semi_not_in_tags : ∀ u ∈ simpleTags, ';' ∉ u := by decide

/-- No simple tag literal contains an ampersand. -/
theorem amp_not_in_tags : ∀ u ∈ simpleTags, '&' ∉ u := by decide

/-- replaceAnchors passes over a block that does not contain an
ampersand. -/
theorem replaceAnchors_skipBlock :
    ∀ (t l : List Char), '&' ∉ t →
      replaceAnchors (t ++ l) = t ++ replaceAnchors l := by
  intro t
  induction t with
  | nil => intro l _; simp
  | cons c t' ih =>
      intro l hnt
      have hc : ('&' : Char) ≠ c :=
        fun h => hnt (List.mem_cons.mpr (Or.inl h))
      rw [List.cons_append, replaceAnchors_cons, if_neg,
        ih l (fun h => hnt (List.mem_cons.mpr (Or.inr h)))]
      · simp
      · intro hpre
        have h2 := List.isPrefixOf_iff_prefix.mp hpre
        rw [anchorPat_cons] at h2
        exact hc (List.cons_prefix_cons.mp h2).1

/-- Dropping a matched region ending in a semicolon from an anchor-free
safe string leaves a safe string. -/
theorem safe_drop_semi :
    ∀ (n : Nat) (l : List Char), l.length ≤ n → SafeHtml false l →
      ∀ (m0 : List Char), (m0 ++ [';']) <+: l →
        SafeHtml false (List.drop (m0 ++ [';']).length l) := by
  intro n
  induction n with
  | zero =>
      intro l hl _ m0 hpre
      have : l = [] := List.eq_nil_of_length_eq_zero (Nat.le_zero.mp hl)
      subst this
      rw [List.prefix_nil] at hpre
      simp at hpre
  | succ n ih =>
      intro l hl hs m0 hpre
      cases hs with
      | nil _ =>
          rw [List.prefix_nil] at hpre
          simp at hpre
      | chr _ c l' h1 h2 hs' =>
          match m0 with
          | [] =>
              rcases List.cons_prefix_cons.mp hpre with ⟨rfl, -⟩
              simpa using hs'
          | c0 :: m0' =>
              rw [List.cons_append] at hpre
              rcases List.cons_prefix_cons.mp hpre with ⟨rfl, hpre'⟩
              have hlen' : l'.length ≤ n := by
                simp only [List.length_cons] at hl; omega
              have hres := ih l' hlen' hs' m0' hpre'
              simpa [List.length_append, List.length_cons,
                List.drop_succ_cons] using hres
      | tag _ t l'' ht hs' =>
          by_cases hlen : (m0 ++ [';']).length ≤ t.length
          · exfalso
            have hmt : (m0 ++ [';']) <+: t :=
              List.prefix_of_prefix_length_le hpre (List.prefix_append t l'') hlen
            exact semi_not_in_tags t ht (hmt.subset (by simp))
          · have htm : t <+: (m0 ++ [';']) :=
              List.prefix_of_prefix_length_le (List.prefix_append t l'') hpre
                (by omega)
            have hdec : t ++ List.drop t.length (m0 ++ [';']) = m0 ++ [';'] :=
              List.prefix_iff_eq_append.mp htm
            have htm0 : t.length ≤ m0.length := by
              rw [List.length_append] at hlen; simp at hlen; omega
            have hdropm : List.drop t.length (m0 ++ [';']) =
                List.drop t.length m0 ++ [';'] :=
              List.drop_append_of_le_length htm0
            have hm2 : (List.drop t.length m0 ++ [';']) <+: l'' := by
              rw [← hdropm]
              rw [← hdec] at hpre
              exact (List.prefix_append_right_inj t).mp hpre
            have hlen'' : l''.length ≤ n := by
              rw [List.length_append] at hl
              have := simpleTags_ne_nil t ht
              omega
            have hres := ih l'' hlen'' hs' (List.drop t.length m0) hm2
            have hgoal : List.drop (m0 ++ [';']).length (t ++ l'') =
                List.drop (List.drop t.length m0 ++ [';']).length l'' := by
              have hklen : (m0 ++ [';']).length =
                  t.length + (List.drop t.length m0 ++ [';']).length := by
                simp only [List.length_append, List.length_drop,
                  List.length_cons, List.length_nil]
                omega
              rw [hklen, ← List.drop_drop, List.drop_left]
            rw [hgoal]
            exact hres

/-- replaceAnchors turns an anchor-free safe string into a safe string,
re-enabling only full anchor opening tags with quote-free href values. -/
theorem safe_replaceAnchors_fuel :
    ∀ (n : Nat) (l : List Char), l.length ≤ n → SafeHtml false l →
      SafeHtml true (replaceAnchors l) := by
  intro n
  induction n with
  | zero =>
      intro l hl _
      have : l = [] := List.eq_nil_of_length_eq_zero (Nat.le_zero.mp hl)
      subst this
      rw [replaceAnchors_nil]
      exact SafeHtml.nil true
  | succ n ih =>
      intro l hl hs
      cases hs with
      | nil _ =>
          rw [replaceAnchors_nil]
          exact SafeHtml.nil true
      | chr _ c l' h1 h2 hs' =>
          rw [replaceAnchors_cons]
          by_cases hp : anchorPat.isPrefixOf (c :: l')
          · rw [if_pos hp]
            by_cases hm : (List.drop anchorPat.length (c :: l')).takeWhile notQuote ≠ [] ∧
                anchorClosePat.isPrefixOf
                  ((List.drop anchorPat.length (c :: l')).dropWhile notQuote)
            · rw [if_pos hm]
              set A := List.drop anchorPat.length (c :: l') with hA
              set sg := A.takeWhile notQuote with hsg
              set r2 := A.dropWhile notQuote with hr2
              set R := List.drop anchorClosePat.length r2 with hR0
              have hdec1 : anchorPat ++ A = c :: l' :=
                List.prefix_iff_eq_append.mp (List.isPrefixOf_iff_prefix.mp hp)
              have hdec2 : sg ++ r2 = A := by
                rw [hsg, hr2]
                exact List.takeWhile_append_dropWhile notQuote _
              have hdec3 : anchorClosePat ++ R = r2 :=
                List.prefix_iff_eq_append.mp (List.isPrefixOf_iff_prefix.mp hm.2)
              have hfull : ((anchorPat ++ sg ++ "\"&gt".toList) ++ [';']) ++ R =
                  c :: l' := by
                have hassoc : ((anchorPat ++ sg ++ "\"&gt".toList) ++ [';']) ++ R =
                    anchorPat ++ (sg ++ (("\"&gt".toList ++ [';']) ++ R)) := by
                  simp [List.append_assoc]
                rw [hassoc, ← anchorClosePat_decomp, hdec3, hdec2, hdec1]
              have hpre2 : ((anchorPat ++ sg ++ "\"&gt".toList) ++ [';']) <+:
                  (c :: l') := ⟨_, hfull⟩
              have hsafe0 : SafeHtml false (c :: l') :=
                SafeHtml.chr false c l' h1 h2 hs'
              have hres := safe_drop_semi (n + 1) (c :: l') hl hsafe0 _ hpre2
              have hRdrop : List.drop ((anchorPat ++ sg ++ "\"&gt".toList)
                  ++ [';']).length (c :: l') = R := by
                rw [← hfull, List.drop_left]
              rw [hRdrop] at hres
              have hRlen : R.length ≤ n := by
                have h4 : r2.length ≤ A.length :=
                  (List.dropWhile_sublist _).length_le
                have h5 : 0 < anchorPat.length := by decide
                rw [hR0]
                rw [hA] at h4
                simp only [List.length_drop, List.length_cons] at h4 ⊢
                simp only [List.length_cons] at hl
                omega
              refine SafeHtml.anc _ _ ?_ (ih _ hRlen hres)
              intro ch hch
              rw [hsg] at hch
              have := List.mem_takeWhile_imp hch
              simpa [notQuote] using this
            · rw [if_neg hm]
              refine SafeHtml.chr true c _ h1 h2 ?_
              refine ih l' ?_ hs'
              simp only [List.length_cons] at hl
              omega
          · rw [if_neg hp]
            refine SafeHtml.chr true c _ h1 h2 ?_
            refine ih l' ?_ hs'
            simp only [List.length_cons] at hl
            omega
      | tag _ t l'' ht hs' =>
          rw [replaceAnchors_skipBlock t l'' (amp_not_in_tags t ht)]
          refine SafeHtml.tag true t _ ht ?_
          refine ih l'' ?_ hs'
          rw [List.length_append] at hl
          have := simpleTags_ne_nil t ht
          omega

/-- Unfuelled form of the replaceAnchors preservation lemma. -/
theorem safe_replaceAnchors (l : List Char) (hs : SafeHtml false l) :
    SafeHtml true (replaceAnchors l) :=
  safe_replaceAnchors_fuel l.length l le_rfl hs

/- ===================================================================
   Part 7.  Claim theorems.
   =================================================================== -/

/-- Claim C8: for every input string, the output of sanitizeHTML contains
no active HTML tags other than the whitelist br, strong, em, a with an
href, ul and li: every raw opening bracket of the output opens either a
whitelisted simple tag literal or a full rewritten anchor tag carrying
target blank and rel noopener noreferrer (the SafeHtml shape); any
other tag of the input, such as script, stays HTML-escaped in the
output, as witnessed on a concrete script input; and a whitelisted
anchor is rewritten with the two attributes, as witnessed on a concrete
anchor input. -/
theorem sanitizeHTML_whitelist_only :
    (∀ input : List Char, SafeHtml true (sanitizeHTML input)) ∧
    sanitizeHTML "<script>alert(1)</script>".toList
      = "&lt;script&gt;alert(1)&lt;/script&gt;".toList ∧
    sanitizeHTML "<a href=\"https://chinfield.com\">ver</a>".toList
      = ("<a href=\"https://chinfield.com\" target=\"_blank\""
          ++ " rel=\"noopener noreferrer\">ver</a>").toList := by
  refine ⟨?_, ?_, ?_⟩
  · intro input
    have e2 : "&lt;br&gt;".toList = '&' :: "lt;br&gt;".toList := by decide
    have e3 : "&lt;strong&gt;".toList = '&' :: "lt;strong&gt;".toList := by decide
    have e4 : "&lt;/strong&gt;".toList = '&' :: "lt;/strong&gt;".toList := by decide
    have e5 : "&lt;em&gt;".toList = '&' :: "lt;em&gt;".toList := by decide
    have e6 : "&lt;/em&gt;".toList = '&' :: "lt;/em&gt;".toList := by decide
    have e8 : "&lt;/a&gt;".toList = '&' :: "lt;/a&gt;".toList := by decide
    have e9 : "&lt;ul&gt;".toList = '&' :: "lt;ul&gt;".toList := by decide
    have e10 : "&lt;/ul&gt;".toList = '&' :: "lt;/ul&gt;".toList := by decide
    have e11 : "&lt;li&gt;".toList = '&' :: "lt;li&gt;".toList := by decide
    have e12 : "&lt;/li&gt;".toList = '&' :: "lt;/li&gt;".toList := by decide
    simp only [sanitizeHTML]
    rw [e2, e3, e4, e5, e6, e8, e9, e10, e11, e12]
    apply safe_replaceAll true '&' "lt;/li&gt;".toList "</li>".toList
      (by decide) (by decide) (by decide) (by decide) (by decide) (by decide)
    apply safe_replaceAll true '&' "lt;li&gt;".toList "<li>".toList
      (by decide) (by decide) (by decide) (by decide) (by decide) (by decide)
    apply safe_replaceAll true '&' "lt;/ul&gt;".toList "</ul>".toList
      (by decide) (by decide) (by decide) (by decide) (by decide) (by decide)
    apply safe_replaceAll true '&' "lt;ul&gt;".toList "<ul>".toList
      (by decide) (by decide) (by decide) (by decide) (by decide) (by decide)
    apply safe_replaceAll true '&' "lt;/a&gt;".toList "</a>".toList
      (by decide) (by decide) (by decide) (by decide) (by decide) (by decide)
    apply safe_replaceAnchors
    apply safe_replaceAll false '&' "lt;/em&gt;".toList "</em>".toList
      (by decide) (by decide) (by decide) (by decide) (by decide) (by decide)
    apply safe_replaceAll false '&' "lt;em&gt;".toList "<em>".toList
      (by decide) (by decide) (by decide) (by decide) (by decide) (by decide)
    apply safe_replaceAll false '&' "lt;/strong&gt;".toList "</strong>".toList
      (by decide) (by decide) (by decide) (by decide) (by decide) (by decide)
    apply safe_replaceAll false '&' "lt;strong&gt;".toList "<strong>".toList
      (by decide) (by decide) (by decide) (by decide) (by decide) (by decide)
    apply safe_replaceAll false '&' "lt;br&gt;".toList "<br>".toList
      (by decide) (by decide) (by decide) (by decide) (by decide) (by decide)
    apply safe_replaceAll false '\n' [] "<br>".toList
      (by decide) (by decide) (by decide) (by decide) (by decide) (by decide)
    exact safe_of_inert false _ (escapeText_inert input)
  · simp +decide [sanitizeHTML, replaceAll, replaceAnchors, escapeText,
      anchorPat, anchorClosePat, anchorOpenTag, anchorAttrs]
  · simp +decide [sanitizeHTML, replaceAll, replaceAnchors, escapeText,
      anchorPat, anchorClosePat, anchorOpenTag, anchorAttrs]

/-- Claim C2: the Confidence Gate returns sufficient exactly when the
passage list is non-empty and the arithmetic mean of the scores reaches
the threshold, inclusively; the mean is 0 for the empty list and the
empty list is insufficient regardless of the threshold. -/
theorem assess_sufficient_iff (threshold : ℚ) (ps : List RetrievedPassage) :
    ((assess threshold ps).sufficient = true ↔
      ps ≠ [] ∧ threshold ≤ sumScores ps / (ps.length : ℚ)) ∧
    ((assess threshold ps).mean_score =
      if ps.isEmpty then 0 else sumScores ps / (ps.length : ℚ)) ∧
    (ps ≠ [] → (assess threshold ps).mean_score = threshold →
      (assess threshold ps).sufficient = true) ∧
    (assess threshold []).sufficient = false ∧
    (assess threshold []).mean_score = 0 := by
  refine ⟨?_, rfl, ?_, by simp [assess], by simp [assess, meanScore]⟩
  · by_cases hps : ps = []
    · subst hps
      simp [assess]
    · simp [assess, meanScore, hps, List.isEmpty_iff]
  · intro hne hmean
    have hm : (assess threshold ps).mean_score = meanScore ps := rfl
    rw [hm] at hmean
    simp [assess, List.isEmpty_iff, hne, hmean]

/-- Claim C2 witness: a single passage with score equal to the threshold
is sufficient (inclusive boundary at a concrete input). -/
theorem assess_sufficient_iff_witness :
    (assess 1 [(⟨"c1", "t", "p", 1⟩ : RetrievedPassage)]).sufficient = true :=
  (assess_sufficient_iff 1 _).2.2.1 (by decide)
    (by norm_num [assess, meanScore, sumScores])

/-- Claim C3: a non-empty query whose retrieval returns zero passages
yields a ChatResponse with needs_human true and num_docs 0, the Handoff
Decider ending in the terminal HANDOFF state with reason NO_DOCUMENTS. -/
theorem zero_passages_forces_handoff (threshold : ℚ)
    (retrieve : String → Except StageFault (List RetrievedPassage))
    (generate : String → List RetrievedPassage → GenerationResult)
    (query sid : String)
    (hq : jsTrim query ≠ "") (hr : retrieve query = Except.ok []) :
    (runPipeline threshold retrieve generate query sid).1 =
      some (DeciderState.HANDOFF HandoffReason.NO_DOCUMENTS) ∧
    ∃ r, (runPipeline threshold retrieve generate query sid).2.1 =
        Except.ok r ∧ r.needs_human = true ∧ r.num_docs = 0 := by
  simp [runPipeline, hq, hr, handoffDecider, assess, needsHumanOf]

/-- Claim C3 witness: the zero-passage handoff at a concrete query. -/
theorem zero_passages_forces_handoff_witness :
    (runPipeline (65/100) (fun _ => Except.ok [])
        (fun _ _ => (⟨"", false, none⟩ : GenerationResult)) "hola" "sid").1 =
      some (DeciderState.HANDOFF HandoffReason.NO_DOCUMENTS) ∧
    ∃ r, (runPipeline (65/100) (fun _ => Except.ok [])
        (fun _ _ => (⟨"", false, none⟩ : GenerationResult)) "hola" "sid").2.1 =
        Except.ok r ∧ r.needs_human = true ∧ r.num_docs = 0 :=
  zero_passages_forces_handoff (65/100) _ _ "hola" "sid" (by decide) rfl

/-- Claim C6: a query that is empty after trimming fails with
InvalidInputError and produces no ChatResponse; for any other query the
boundary result is a normal ChatResponse, and every internal failure
(retrieval stage fault, generation failure) is absorbed into it with
needs_human true. -/
theorem invalid_input_only_boundary_error (threshold : ℚ)
    (retrieve : String → Except StageFault (List RetrievedPassage))
    (generate : String → List RetrievedPassage → GenerationResult)
    (query sid : String) :
    (jsTrim query = "" →
      (runPipeline threshold retrieve generate query sid).2.1 =
        Except.error PipelineError.InvalidInputError) ∧
    (jsTrim query ≠ "" →
      ∃ r, (runPipeline threshold retrieve generate query sid).2.1 =
          Except.ok r ∧
        (∀ f, retrieve query = Except.error f → r.needs_human = true) ∧
        (∀ ps, retrieve query = Except.ok ps →
          (assess threshold ps).sufficient = true →
          (generate query ps).succeeded = false →
          r.needs_human = true)) := by
  constructor
  · intro h
    simp [runPipeline, h]
  · intro h
    rcases hr : retrieve query with f | ps
    · refine ⟨⟨appendContactBlock apologyText, true, 0, sid⟩, ?_, ?_, ?_⟩
      · simp [runPipeline, h, hr]
      · intro _ _; rfl
      · intro ps hps
        simp at hps
    · by_cases hsuf : (assess threshold ps).sufficient = true
      · by_cases hgen : (generate query ps).succeeded = true
        · refine ⟨⟨(generate query ps).answer_text, false, ps.length, sid⟩,
              ?_, ?_, ?_⟩
          · simp [runPipeline, h, hr, handoffDecider, hsuf, hgen, needsHumanOf]
          · intro f hf
            simp at hf
          · intro ps2 hps2 _ hg2
            have hpseq : ps = ps2 := by
              injection hps2
            rw [← hpseq] at hg2
            rw [hg2] at hgen
            simp at hgen
        · refine ⟨⟨appendContactBlock (generate query ps).answer_text, true,
              ps.length, sid⟩, ?_, ?_, ?_⟩
          · have hgen2 : (generate query ps).succeeded = false := by
              revert hgen
              cases (generate query ps).succeeded <;> simp
            simp [runPipeline, h, hr, handoffDecider, hsuf, hgen2, needsHumanOf]
          · intro _ _; rfl
          · intro _ _ _ _; rfl
      · refine ⟨⟨appendContactBlock "", true, ps.length, sid⟩, ?_, ?_, ?_⟩
        · have hsuf2 : (assess threshold ps).sufficient = false := by
            revert hsuf
            cases (assess threshold ps).sufficient <;> simp
          simp [runPipeline, h, hr, handoffDecider, hsuf2, needsHumanOf]
        · intro _ _; rfl
        · intro _ _ _ _; rfl

/-- Claim C6 witness: at a concrete non-empty query whose retrieval
raises a stage fault, the boundary still returns an ok response. -/
theorem invalid_input_only_boundary_error_witness :
    ∃ r, (runPipeline (65/100)
        (fun _ => (Except.error StageFault.EncodingError :
          Except StageFault (List RetrievedPassage)))
        (fun _ _ => (⟨"", false, none⟩ : GenerationResult))
        "hola" "sid").2.1 = Except.ok r ∧
      (∀ f, (Except.error StageFault.EncodingError :
          Except StageFault (List RetrievedPassage)) = Except.error f →
        r.needs_human = true) ∧
      (∀ ps, (Except.error StageFault.EncodingError :
          Except StageFault (List RetrievedPassage)) = Except.ok ps →
        (assess (65/100) ps).sufficient = true →
        ((⟨"", false, none⟩ : GenerationResult)).succeeded = false →
        r.needs_human = true) :=
  (invalid_input_only_boundary_error (65/100) _ _ "hola" "sid").2 (by decide)

/-- Claim C7: whenever the Confidence Gate reports insufficient
confidence for the retrieved passages, the Answer Generator is never
invoked (generator call count 0). -/
theorem low_confidence_skips_generator (threshold : ℚ)
    (retrieve : String → Except StageFault (List RetrievedPassage))
    (generate : String → List RetrievedPassage → GenerationResult)
    (query sid : String) (ps : List RetrievedPassage)
    (hr : retrieve query = Except.ok ps)
    (hs : (assess threshold ps).sufficient = false) :
    (runPipeline threshold retrieve generate query sid).2.2 = 0 := by
  by_cases hq : jsTrim query = ""
  · simp [runPipeline, hq]
  · simp [runPipeline, hq, hr, handoffDecider, hs]

/-- Claim C1 counterexample: the legacy chat client
(src/frontend/widget.js), given a chat API response with needs_human
true and answer "X", renders the undefined response field instead of
the answer text, so the claim that the chat client renders only the
answer text fails on the legacy client. -/
theorem legacy_not_answer_only_cex :
    truthy (⟨some "X", none, some true, none, some 0⟩ : ApiJson).needs_human = true ∧
    (Legacy.sendMessageComplete
        (⟨true, true, "", [⟨0, "Pensando...", Sender.bot, true⟩], 1, some 0⟩ : Legacy.LState)
        (FetchOutcome.success
          (⟨some "X", none, some true, none, some 0⟩ : ApiJson))).messages =
      [⟨1, "undefined", Sender.bot, false⟩] ∧
    ("undefined" : String) ≠ "X" := by
  decide

/-- Claim C1 (amended to the v2 widget of src/unnamed/part_000): for
every chat API response with needs_human true, the v2 client renders
exactly one bot message carrying the answer text, and no separate
handoff or contact message in addition to it. -/
theorem v2_renders_answer_only (s : V2.WState) (lid : Nat) (data : ApiJson)
    (a : String) (hpend : s.pendingLoading = some lid)
    (hneeds : truthy data.needs_human = true) (hans : data.answer = some a) :
    (V2.sendMessageComplete s (FetchOutcome.success data)).messages =
      s.messages.filter (fun m => m.id ≠ lid) ++
        [⟨s.nextId, a, Sender.bot, false⟩] := by
  simp [V2.sendMessageComplete, hpend, V2.removeMessage, V2.addMessage,
    hans, jsToString]

/-- Claim C1 witness: the v2 rendering at a concrete state and
response. -/
theorem v2_renders_answer_only_witness :
    (V2.sendMessageComplete
        (⟨true, true, "sid", 2, "", [⟨0, "Pensando...", Sender.bot, true⟩], 1, some 0, 1⟩ : V2.WState)
        (FetchOutcome.success
          (⟨some "X", none, some true, none, some 3⟩ : ApiJson))).messages =
      ([⟨0, "Pensando...", Sender.bot, true⟩] : List Msg).filter
          (fun m => m.id ≠ 0) ++ [⟨1, "X", Sender.bot, false⟩] :=
  v2_renders_answer_only _ 0 _ "X" rfl rfl rfl

/-- Claim C4 counterexample: the legacy chat client posts a JSON body
whose only key is message, with no session_id key, so the claim that
the chat client always sends both fields fails on the legacy client. -/
theorem legacy_request_lacks_session_id_cex :
    ((Legacy.sendMessageStart
        (⟨false, false, "hola", [], 0, none⟩ : Legacy.LState)).2.map
      (fun r => r.body.map Prod.fst)) = some ["message"] ∧
    ¬ (("session_id" : String) ∈ (["message"] : List String)) := by
  decide

/-- Claim C4 (amended to the v2 widget of src/unnamed/part_000): for
every non-empty trimmed user message submitted while no response is
pending, the v2 client posts to /api/chat a JSON body containing both
the message field and the session_id field. -/
theorem v2_request_has_message_and_session_id (s : V2.WState)
    (hmsg : jsTrim s.inputValue ≠ "") (hwait : s.isWaitingResponse = false) :
    (V2.sendMessageStart s).2 = some ⟨"/api/chat",
      [("message", jsTrim s.inputValue), ("session_id", s.sessionId)]⟩ := by
  simp [V2.sendMessageStart, hmsg, hwait]

/-- Claim C4 witness: the v2 request at a concrete state. -/
theorem v2_request_has_message_and_session_id_witness :
    (V2.sendMessageStart
        (⟨false, false, "sid", 0, "hola", [], 0, none, 0⟩ : V2.WState)).2 =
      some ⟨"/api/chat", [("message", jsTrim "hola"), ("session_id", "sid")]⟩ :=
  v2_request_has_message_and_session_id _ (by decide) rfl

/-- Claim C9: when an API call of a chat client fails, sendMessage
removes the loading indicator, appends a non-empty fallback bot message
containing the contact email, and resets isWaitingResponse; on every
settled outcome, success or failure, isWaitingResponse is reset, so a
subsequent message can always be sent.  Stated for both the v2 widget
and the legacy widget. -/
theorem fetch_failure_fallback_and_reset
    (s : V2.WState) (t : Legacy.LState) (lid lid2 : Nat)
    (hp : s.pendingLoading = some lid) (hp2 : t.pendingLoading = some lid2) :
    (∃ fb, (V2.sendMessageComplete s FetchOutcome.failure).messages =
        s.messages.filter (fun m => m.id ≠ lid) ++
          [⟨s.nextId, fb, Sender.bot, false⟩] ∧
      fb ≠ "" ∧ ∃ pre post, fb = pre ++ contact_email ++ post) ∧
    (∀ outcome, (V2.sendMessageComplete s outcome).isWaitingResponse = false) ∧
    (∃ fb, (Legacy.sendMessageComplete t FetchOutcome.failure).messages =
        t.messages.filter (fun m => m.id ≠ lid2) ++
          [⟨t.nextId, fb, Sender.bot, false⟩] ∧
      fb ≠ "" ∧ ∃ pre post, fb = pre ++ contact_email ++ post) ∧
    (∀ outcome, (Legacy.sendMessageComplete t outcome).isWaitingResponse = false) := by
  refine ⟨?_, ?_, ?_, ?_⟩
  · refine ⟨"Lo siento, hubo un problema al procesar tu consulta. "
        ++ "Por favor, intenta nuevamente o contacta a info@chinfield.com",
      ?_, by decide,
      "Lo siento, hubo un problema al procesar tu consulta. Por favor, intenta nuevamente o contacta a ",
      "", by decide⟩
    simp [V2.sendMessageComplete, hp, V2.removeMessage, V2.addMessage]
  · intro outcome
    cases outcome <;>
      simp [V2.sendMessageComplete, hp, V2.removeMessage, V2.addMessage]
  · refine ⟨"Lo siento, hubo un problema al procesar tu consulta. "
        ++ "Por favor, intenta nuevamente o contacta directamente a "
        ++ "info@chinfield.com",
      ?_, by decide,
      "Lo siento, hubo un problema al procesar tu consulta. Por favor, intenta nuevamente o contacta directamente a ",
      "", by decide⟩
    simp [Legacy.sendMessageComplete, hp2, Legacy.removeMessage,
      Legacy.addMessage]
  · intro outcome
    cases outcome with
    | success data =>
        by_cases hh : truthy data.handoff_to_human = true <;>
          simp [Legacy.sendMessageComplete, hp2, Legacy.removeMessage,
            Legacy.addMessage, Legacy.addHandoffMessage, hh]
    | failure =>
        simp [Legacy.sendMessageComplete, hp2, Legacy.removeMessage,
          Legacy.addMessage]

/-- Claim C9 witness: the fallback and reset at concrete states. -/
theorem fetch_failure_fallback_and_reset_witness :
    (∃ fb, (V2.sendMessageComplete
        (⟨true, true, "sid", 2, "", [⟨0, "Pensando...", Sender.bot, true⟩], 1, some 0, 1⟩ : V2.WState)
        FetchOutcome.failure).messages =
        ([⟨0, "Pensando...", Sender.bot, true⟩] : List Msg).filter
          (fun m => m.id ≠ 0) ++ [⟨1, fb, Sender.bot, false⟩] ∧
      fb ≠ "" ∧ ∃ pre post, fb = pre ++ contact_email ++ post) ∧
    (∀ outcome, (V2.sendMessageComplete
        (⟨true, true, "sid", 2, "", [⟨0, "Pensando...", Sender.bot, true⟩], 1, some 0, 1⟩ : V2.WState)
        outcome).isWaitingResponse = false) ∧
    (∃ fb, (Legacy.sendMessageComplete
        (⟨true, true, "", [⟨0, "Pensando...", Sender.bot, true⟩], 1, some 0⟩ : Legacy.LState)
        FetchOutcome.failure).messages =
        ([⟨0, "Pensando...", Sender.bot, true⟩] : List Msg).filter
          (fun m => m.id ≠ 0) ++ [⟨1, fb, Sender.bot, false⟩] ∧
      fb ≠ "" ∧ ∃ pre post, fb = pre ++ contact_email ++ post) ∧
    (∀ outcome, (Legacy.sendMessageComplete
        (⟨true, true, "", [⟨0, "Pensando...", Sender.bot, true⟩], 1, some 0⟩ : Legacy.LState)
        outcome).isWaitingResponse = false) :=
  fetch_failure_fallback_and_reset _ _ 0 0 rfl rfl

/-- Claim C10: when the trimmed input is empty or a response is already
pending, sendMessage returns without issuing a request, without touching
the message list, and without changing any widget state, in both
widgets; consequently, along every event trace of the v2 widget from
its initial state, at most one API request is in flight at any time. -/
theorem guarded_send_no_effects :
    (∀ s : V2.WState, jsTrim s.inputValue = "" ∨ s.isWaitingResponse = true →
      V2.sendMessageStart s = (s, none)) ∧
    (∀ t : Legacy.LState, jsTrim t.inputValue = "" ∨ t.isWaitingResponse = true →
      Legacy.sendMessageStart t = (t, none)) ∧
    (∀ (sid : String) (es : List V2.WEvent),
      (V2.runEvents (V2.initState sid) es).inflight ≤ 1) := by
  have hguard : ∀ s : V2.WState,
      jsTrim s.inputValue = "" ∨ s.isWaitingResponse = true →
      V2.sendMessageStart s = (s, none) := by
    intro s h
    simp only [V2.sendMessageStart]
    rw [if_pos h]
  refine ⟨hguard, ?_, ?_⟩
  · intro t h
    simp only [Legacy.sendMessageStart]
    rw [if_pos h]
  · have hstep : ∀ (s : V2.WState) (e : V2.WEvent),
        (s.inflight = if s.isWaitingResponse then 1 else 0) →
        (s.pendingLoading.isSome = s.isWaitingResponse) →
        ((V2.wstep s e).inflight =
          if (V2.wstep s e).isWaitingResponse then 1 else 0) ∧
        ((V2.wstep s e).pendingLoading.isSome =
          (V2.wstep s e).isWaitingResponse) := by
      intro s e h1 h2
      cases e with
      | send input =>
          by_cases hg : jsTrim input = "" ∨ s.isWaitingResponse = true
          · have := hguard { s with inputValue := input } hg
            simp only [V2.wstep, this]
            exact ⟨h1, h2⟩
          · push_neg at hg
            have h1' : s.inflight = 0 := by
              rw [h1, if_neg hg.2]
            simp only [V2.wstep, V2.sendMessageStart, V2.addMessage]
            rw [if_neg (fun hx => hx.elim hg.1 hg.2)]
            constructor
            · simp [h1']
            · simp
      | settle outcome =>
          cases hpl : s.pendingLoading with
          | none =>
              simp only [V2.wstep, V2.sendMessageComplete, hpl]
              exact ⟨h1, by rw [← hpl]; exact h2⟩
          | some lid =>
              rw [hpl] at h2
              simp at h2
              have h1' : s.inflight = 1 := by
                rw [h1, if_pos h2]
              cases outcome with
              | success data =>
                  simp [V2.wstep, V2.sendMessageComplete, hpl,
                    V2.removeMessage, V2.addMessage, h1']
              | failure =>
                  simp [V2.wstep, V2.sendMessageComplete, hpl,
                    V2.removeMessage, V2.addMessage, h1']
      | toggle =>
          have hpr : (V2.wstep s V2.WEvent.toggle).inflight = s.inflight ∧
              (V2.wstep s V2.WEvent.toggle).isWaitingResponse =
                s.isWaitingResponse ∧
              (V2.wstep s V2.WEvent.toggle).pendingLoading = s.pendingLoading := by
            simp only [V2.wstep, V2.toggleChat, V2.openChat, V2.closeChat]
            split_ifs <;> exact ⟨rfl, rfl, rfl⟩
          rw [hpr.1, hpr.2.1, hpr.2.2]
          exact ⟨h1, h2⟩
      | openEvt =>
          have hpr : (V2.wstep s V2.WEvent.openEvt).inflight = s.inflight ∧
              (V2.wstep s V2.WEvent.openEvt).isWaitingResponse =
                s.isWaitingResponse ∧
              (V2.wstep s V2.WEvent.openEvt).pendingLoading = s.pendingLoading := by
            simp only [V2.wstep, V2.openChat]
            split_ifs <;> exact ⟨rfl, rfl, rfl⟩
          rw [hpr.1, hpr.2.1, hpr.2.2]
          exact ⟨h1, h2⟩
      | closeEvt =>
          have hpr : (V2.wstep s V2.WEvent.closeEvt).inflight = s.inflight ∧
              (V2.wstep s V2.WEvent.closeEvt).isWaitingResponse =
                s.isWaitingResponse ∧
              (V2.wstep s V2.WEvent.closeEvt).pendingLoading = s.pendingLoading := by
            simp only [V2.wstep, V2.closeChat]
            split_ifs <;> exact ⟨rfl, rfl, rfl⟩
          rw [hpr.1, hpr.2.1, hpr.2.2]
          exact ⟨h1, h2⟩
    intro sid es
    have hrun : ∀ (es : List V2.WEvent) (s : V2.WState),
        (s.inflight = if s.isWaitingResponse then 1 else 0) →
        (s.pendingLoading.isSome = s.isWaitingResponse) →
        ((V2.runEvents s es).inflight =
          if (V2.runEvents s es).isWaitingResponse then 1 else 0) ∧
        ((V2.runEvents s es).pendingLoading.isSome =
          (V2.runEvents s es).isWaitingResponse) := by
      intro es
      induction es with
      | nil => intro s h1 h2; exact ⟨h1, h2⟩
      | cons e es ih =>
          intro s h1 h2
          have hs := hstep s e h1 h2
          exact ih (V2.wstep s e) hs.1 hs.2
    have hfinal := hrun es (V2.initState sid) rfl rfl
    rw [hfinal.1]
    split <;> omega

/-- Claim C10 witness: the guarded sendMessage is a no-op at a concrete
waiting state, and a concrete trace keeps at most one request in
flight. -/
theorem guarded_send_no_effects_witness :
    V2.sendMessageStart
        (⟨false, true, "sid", 0, "hola", [], 0, some 0, 1⟩ : V2.WState) =
      ((⟨false, true, "sid", 0, "hola", [], 0, some 0, 1⟩ : V2.WState), none) ∧
    (V2.runEvents (V2.initState "sid")
      [V2.WEvent.send "hola", V2.WEvent.send "otra"]).inflight ≤ 1 :=
  ⟨guarded_send_no_effects.1 _ (Or.inr rfl),
   guarded_send_no_effects.2.2 "sid" _⟩

/-- Claim C5: the session id is fixed at widget initialization and is
never mutated by any widget operation: every event trace preserves
STATE.sessionId, getSessionId returns it, every issued request carries
it, and the core treats the session id as pass-through metadata: the
routing outcome of runPipeline is independent of it and the response
echoes it unchanged. -/
theorem session_id_stable :
    (∀ (sid : String) (es : List V2.WEvent),
      (V2.runEvents (V2.initState sid) es).sessionId = sid) ∧
    (∀ s : V2.WState, V2.getSessionId s = s.sessionId) ∧
    (∀ (s : V2.WState) (e : V2.WEvent),
      (V2.wstep s e).sessionId = s.sessionId) ∧
    (∀ s : V2.WState, ∀ req, (V2.sendMessageStart s).2 = some req →
      req.body = [("message", jsTrim s.inputValue),
                  ("session_id", s.sessionId)]) ∧
    (∀ (threshold : ℚ)
      (retrieve : String → Except StageFault (List RetrievedPassage))
      (generate : String → List RetrievedPassage → GenerationResult)
      (query sid1 sid2 : String),
      (runPipeline threshold retrieve generate query sid1).1 =
        (runPipeline threshold retrieve generate query sid2).1 ∧
      (runPipeline threshold retrieve generate query sid1).2.2 =
        (runPipeline threshold retrieve generate query sid2).2.2 ∧
      (∀ r1 r2,
        (runPipeline threshold retrieve generate query sid1).2.1 =
          Except.ok r1 →
        (runPipeline threshold retrieve generate query sid2).2.1 =
          Except.ok r2 →
        r1.answer = r2.answer ∧ r1.needs_human = r2.needs_human ∧
        r1.num_docs = r2.num_docs ∧ r1.session_id = sid1 ∧
        r2.session_id = sid2)) := by
  have hstep : ∀ (s : V2.WState) (e : V2.WEvent),
      (V2.wstep s e).sessionId = s.sessionId := by
    intro s e
    cases e with
    | send input =>
        simp only [V2.wstep, V2.sendMessageStart, V2.addMessage]
        split <;> rfl
    | settle outcome =>
        cases hpl : s.pendingLoading with
        | none => simp [V2.wstep, V2.sendMessageComplete, hpl]
        | some lid =>
            cases outcome <;>
              simp [V2.wstep, V2.sendMessageComplete, hpl,
                V2.removeMessage, V2.addMessage]
    | toggle =>
        simp only [V2.wstep, V2.toggleChat, V2.openChat, V2.closeChat]
        split_ifs <;> rfl
    | openEvt =>
        simp only [V2.wstep, V2.openChat]
        split_ifs <;> rfl
    | closeEvt =>
        simp only [V2.wstep, V2.closeChat]
        split_ifs <;> rfl
  refine ⟨?_, fun _ => rfl, hstep, ?_, ?_⟩
  · intro sid es
    have hall : ∀ (es : List V2.WEvent) (s : V2.WState),
        (V2.runEvents s es).sessionId = s.sessionId := by
      intro es
      induction es with
      | nil => intro s; rfl
      | cons e es ih =>
          intro s
          have h1 : V2.runEvents s (e :: es) = V2.runEvents (V2.wstep s e) es := rfl
          rw [h1, ih (V2.wstep s e), hstep s e]
    exact hall es (V2.initState sid)
  · intro s req hreq
    simp only [V2.sendMessageStart] at hreq
    split at hreq
    · simp at hreq
    · simp at hreq
      rw [← hreq]
  · intro threshold retrieve generate query sid1 sid2
    by_cases hq : jsTrim query = ""
    · refine ⟨by simp [runPipeline, hq], by simp [runPipeline, hq], ?_⟩
      intro r1 r2 h1 h2
      simp [runPipeline, hq] at h1
    · rcases hrx : retrieve query with f | ps
      · refine ⟨by simp [runPipeline, hq, hrx],
          by simp [runPipeline, hq, hrx], ?_⟩
        intro r1 r2 h1 h2
        simp only [runPipeline, if_neg hq, hrx] at h1 h2
        simp at h1 h2
        rw [← h1, ← h2]
        exact ⟨rfl, rfl, rfl, rfl, rfl⟩
      · refine ⟨by simp [runPipeline, hq, hrx],
          by simp [runPipeline, hq, hrx], ?_⟩
        intro r1 r2 h1 h2
        simp only [runPipeline, if_neg hq, hrx] at h1 h2
        simp at h1 h2
        rw [← h1, ← h2]
        exact ⟨rfl, rfl, rfl, rfl, rfl⟩

/-- Claim C5 witness: session id behaviour at concrete inputs, with the
pass-through of a concrete faulted pipeline run discharged. -/
theorem session_id_stable_witness :
    (V2.runEvents (V2.initState "sid")
      [V2.WEvent.send "hola", V2.WEvent.toggle]).sessionId = "sid" ∧
    ((⟨appendContactBlock apologyText, true, 0, "s1"⟩ : ChatResponse).answer =
        (⟨appendContactBlock apologyText, true, 0, "s2"⟩ : ChatResponse).answer ∧
      (⟨appendContactBlock apologyText, true, 0, "s1"⟩ : ChatResponse).needs_human =
        (⟨appendContactBlock apologyText, true, 0, "s2"⟩ : ChatResponse).needs_human ∧
      (⟨appendContactBlock apologyText, true, 0, "s1"⟩ : ChatResponse).num_docs =
        (⟨appendContactBlock apologyText, true, 0, "s2"⟩ : ChatResponse).num_docs ∧
      (⟨appendContactBlock apologyText, true, 0, "s1"⟩ : ChatResponse).session_id = "s1" ∧
      (⟨appendContactBlock apologyText, true, 0, "s2"⟩ : ChatResponse).session_id = "s2") :=
  ⟨session_id_stable.1 "sid" _,
   (session_id_stable.2.2.2.2 1
      (fun _ => (Except.error StageFault.EncodingError :
        Except StageFault (List RetrievedPassage)))
      (fun _ _ => (⟨"", false, none⟩ : GenerationResult))
      "hola" "s1" "s2").2.2 _ _ rfl rfl⟩

/-- Claim C7 witness: a concrete low-score passage set skips the
generator. -/
theorem low_confidence_skips_generator_witness :
    (runPipeline (65/100)
      (fun _ => Except.ok [(⟨"c1", "t", "p", 1/10⟩ : RetrievedPassage)])
      (fun _ _ => (⟨"a", true, none⟩ : GenerationResult)) "hola" "sid").2.2 = 0 :=
  low_confidence_skips_generator (65/100) _ _ "hola" "sid" _ rfl
    (by norm_num [assess, meanScore, sumScores])

end Chinfield
